import Mathlib

/-!
# Lizicular — analysis-job orchestration subsystem, shallow embedding

Shallow embedding of the asynchronous analysis-job orchestration subsystem of
the Lizicular backend, translated from:

* `backend/tenders/schemas.py` (document model: `AnalysisStatus`, `AnalysisResult`, `Tender`),
* `backend/tenders/tenders_utils.py` (`check_for_existing_analysis`,
  `create_placeholder_analysis`, `update_analysis_result`, `get_analysis_by_id`,
  `get_tender_by_analysis_id`),
* `backend/tenders/routes.py` (`api_generate_analysis`, `run_analysis_in_background`),
* `backend/automations/models.py` (`ProcedureStatus`, `AnalysisExecution`),
* `backend/automations/routes.py` (`cancel_execution`),
* `backend/automations/websocket/connection_manager.py` (`ConnectionManager`),
* `backend/automations/websocket/manager.py` (`WebSocketManager`).

Modelling conventions:

* Records are taken at the MongoDB document level, exactly as the code writes
  them (`model_dump` payloads and `$set`/`$push` updates).  Two wiring facts
  of the source are modelled explicitly because they decide control flow:
  pydantic v2 construction of `AnalysisResult` raises a ValidationError
  whenever the required `data` field is absent (`mkAnalysisResult`), and the
  automations module reads the collection handle `MongoDB.db`, an attribute
  the imported connection class never defines (`mongoDBAttributes`), so the
  execution-level endpoints raise before touching state.
* Timestamps (`datetime.utcnow()`) are modelled as `Nat` ticks supplied by the
  caller; opaque JSON payloads (`Dict[str, Any]`) are modelled as association
  lists `Payload`, whose Python truthiness (`if data:`) is emptiness.
* MongoDB `update_one` with a positional `$` operator updates the first
  document matching the filter and, inside it, the first array element matched
  by the filter; this is `updateFirst` below.  `modified_count > 0` is modelled
  as "some document matched" (every modelled `$set` rewrites `updated_at`
  or `status`, so a matched document is always reported modified).
* Each Python `await` that crosses the persistence boundary reads the
  collection state of that moment; racing writers (e.g. `delete_tender`) are
  modelled by letting distinct snapshots be supplied for distinct moments.
-/

namespace Lizicular

/-- Opaque JSON-object payload (`Dict[str, Any]` in the Python code). -/
abbrev Payload := List (String × String)

/-- Python truthiness of an optional dict argument (`if data:`):
`None` and the empty dict are falsy. -/
def truthyPayload : Option Payload → Bool
  | none => false
  | some p => !p.isEmpty

/-- Python truthiness of an optional string argument (`if error_message:`):
`None` and the empty string are falsy. -/
def truthyStr : Option String → Bool
  | none => false
  | some s => !s.isEmpty

/-- Enum `AnalysisStatus` of `backend/tenders/schemas.py`: the status enum of
analyses embedded in a tender.  It has exactly four values — it contains no
`CANCELLED` member. -/
inductive AnalysisStatus where
  | pending
  | processing
  | completed
  | failed
deriving DecidableEq

/-- Enum `ProcedureStatus` of `backend/automations/models.py`: the status enum of
standalone execution records; this one does include `CANCELLED`. -/
inductive ProcedureStatus where
  | pending
  | processing
  | completed
  | failed
  | cancelled
deriving DecidableEq

/-- Live (non-terminal) statuses used by `check_for_existing_analysis`. -/
def isLive : AnalysisStatus → Bool
  | .pending => true
  | .processing => true
  | _ => false

/-- Live statuses at the execution level, used by `cancel_execution`
(`status in [ProcedureStatus.PENDING, ProcedureStatus.PROCESSING]`). -/
def isLiveProc : ProcedureStatus → Bool
  | .pending => true
  | .processing => true
  | _ => false

/-- Terminal statuses at the embedded-analysis level. -/
def isTerminal : AnalysisStatus → Bool
  | .completed => true
  | .failed => true
  | _ => false

/-- An embedded analysis document in a tender's `analysis_results` array, with
the fields written by `create_placeholder_analysis` and
`update_analysis_result` (document level). -/
structure AnalysisResult where
  id : String
  name : String
  procedure_id : String
  procedure_name : String
  created_by : String
  created_at : Nat
  status : AnalysisStatus
  data : Option Payload := none
  error_message : Option String := none
  processing_time : Option Nat := none
  pending_since : Option Nat := none
  updated_at : Option Nat := none
deriving DecidableEq

/-- Message of the pydantic ValidationError raised when `AnalysisResult` is
constructed without its required `data` field. -/
def validationErrorText : String :=
  "1 validation error for AnalysisResult: data Field required"

/-- Pydantic v2 construction of the `AnalysisResult` model
(`tenders/schemas.py`) with the keyword arguments that the code supplies.
The model declares `data : AnalysisData = Field(...)` — required, with no
default — so a construction whose `data` keyword is absent (`none` here)
raises a ValidationError; and it declares no `pending_since` field, so that
keyword argument of `create_placeholder_analysis` is an undeclared extra and
is dropped (pydantic's default `extra` handling), never stored. -/
def mkAnalysisResult (id name procedure_id procedure_name created_by : String)
    (created_at : Nat) (status : AnalysisStatus) (data : Option Payload) :
    Except String AnalysisResult :=
  match data with
  | none => .error validationErrorText
  | some p =>
    .ok
      { id := id
        name := name
        procedure_id := procedure_id
        procedure_name := procedure_name
        created_by := created_by
        created_at := created_at
        status := status
        data := some p }

/-- A tender document, restricted to the fields the analysed operations touch
(`documents`, `workspace_id`, `search_text`, … are never read or written by
them and are omitted). -/
structure Tender where
  _id : String
  analysis_results : List AnalysisResult
  updated_at : Nat
deriving DecidableEq

/-- The `tenders` collection. -/
structure Db where
  tenders : List Tender
deriving DecidableEq

/-- A document of the separate `analysis_results` collection polled by the
dispatcher (`find_one({"_id": analysis_id})` followed by `.get("data")`);
only its `data` field is ever read. -/
structure ResultDoc where
  data : Option Payload := none
deriving DecidableEq

/-- Apply `f` to the first list element satisfying `p`, leaving everything
else in place: the semantics of a MongoDB `update_one` with a positional
`$` array operator. -/
def updateFirst (p : α → Bool) (f : α → α) : List α → List α
  | [] => []
  | x :: xs => if p x then f x :: xs else x :: updateFirst p f xs

/-- Remove the first list element satisfying `p` (Python `list.remove` /
`del` on a matched entry). -/
def removeFirstBy (p : α → Bool) : List α → List α
  | [] => []
  | x :: xs => if p x then xs else x :: removeFirstBy p xs

/-- The filter `{"_id": tender_id, "analysis_results.id": analysis_id}` of
`update_analysis_result`, as a predicate on one tender document. -/
def tenderMatches (tender_id analysis_id : String) (t : Tender) : Bool :=
  decide (t._id = tender_id) &&
    t.analysis_results.any (fun a => decide (a.id = analysis_id))

/-- Function `check_for_existing_analysis` (`tenders_utils.py`): true when the tender
`tender_id` embeds an analysis for `automation_id` whose status is PENDING or
PROCESSING.  NOTE: this function has no caller anywhere in the repository. -/
def check_for_existing_analysis (db : Db) (tender_id automation_id : String) : Bool :=
  db.tenders.any fun t =>
    decide (t._id = tender_id) &&
      t.analysis_results.any (fun a => decide (a.procedure_id = automation_id) && isLive a.status)

/-- The `$set` document of `update_analysis_result` applied to the matched
array element: `status` and `updated_at` are always written; `data`,
`error_message` are written only when truthy, `processing_time` only when not
`None`, and `pending_since` is nulled only when `clear_pending_since`. -/
def setAnalysisFields (st : AnalysisStatus) (data : Option Payload)
    (error_message : Option String) (processing_time : Option Nat)
    (clear_pending_since : Bool) (now : Nat) (a : AnalysisResult) : AnalysisResult :=
  { a with
    status := st
    updated_at := some now
    data := if truthyPayload data then data else a.data
    error_message := if truthyStr error_message then error_message else a.error_message
    processing_time := if processing_time.isSome then processing_time else a.processing_time
    pending_since := if clear_pending_since then none else a.pending_since }

/-- Rewrite, inside one tender, the first element of `analysis_results` whose
`id` matches (the positional `$` element) with `g`. -/
def setInTender (analysis_id : String) (g : AnalysisResult → AnalysisResult) (t : Tender) : Tender :=
  { t with analysis_results :=
      updateFirst (fun a => decide (a.id = analysis_id)) g t.analysis_results }

/-- Function `update_analysis_result` (`tenders_utils.py`): one conditional
`update_one` on the filter of `tenderMatches` with a positional `$set`
(`setAnalysisFields`); returns `modified_count > 0`. -/
def update_analysis_result (db : Db) (tender_id analysis_id : String)
    (st : AnalysisStatus) (data : Option Payload) (error_message : Option String)
    (processing_time : Option Nat) (clear_pending_since : Bool) (now : Nat) :
    Db × Bool :=
  let p := tenderMatches tender_id analysis_id
  let g := setAnalysisFields st data error_message processing_time clear_pending_since now
  if db.tenders.any p then
    (⟨updateFirst p (setInTender analysis_id g) db.tenders⟩, true)
  else (db, false)

/-- Function `get_analysis_by_id` (`tenders_utils.py`): `find_one` on the same filter
with a positional projection — the first matching array element of the first
matching tender. -/
def get_analysis_by_id (db : Db) (tender_id analysis_id : String) : Option AnalysisResult :=
  match db.tenders.find? (tenderMatches tender_id analysis_id) with
  | none => none
  | some t => t.analysis_results.find? (fun a => decide (a.id = analysis_id))

/-- Function `get_tender_by_analysis_id` (`tenders_utils.py`): re-resolve the parent
tender by one of its embedded analysis ids.  NOTE: this function has no caller
anywhere in the repository. -/
def get_tender_by_analysis_id (db : Db) (analysis_id : String) : Option Tender :=
  db.tenders.find? fun t =>
    t.analysis_results.any (fun a => decide (a.id = analysis_id))

/-- Function `create_placeholder_analysis` (`tenders_utils.py`): construct
the PENDING `AnalysisResult` (passing no `data` keyword — the `AnalysisData`
field is required, so the construction raises, `Except.error`, before the
database is touched) and otherwise `$push` its dump onto the parent's
`analysis_results` via `find_one_and_update({"_id": tender_id})`;
`.ok none` when the parent is absent.  The automation-name lookup is
best-effort in the source; its result is the `automation_name` argument. -/
def create_placeholder_analysis (db : Db) (tender_id automation_id user_id : String)
    (name : Option String) (automation_name : String) (fresh_id : String) (now : Nat) :
    Db × Except String (Option AnalysisResult) :=
  let final_name := match name with
    | some n => n
    | none => automation_name ++ " - " ++ toString now
  match mkAnalysisResult fresh_id final_name automation_id automation_name user_id now
      .pending none with
  | .error e => (db, .error e)
  | .ok record =>
    if db.tenders.any (fun t => decide (t._id = tender_id)) then
      (⟨updateFirst (fun t => decide (t._id = tender_id))
          (fun t => { t with analysis_results := t.analysis_results ++ [record], updated_at := now })
          db.tenders⟩, .ok (some record))
    else (db, .ok none)

/-- An automation target row (`Automation` in PostgreSQL): only its `url` and
`name` are read by the submit route. -/
structure AutomationTarget where
  url : String
  name : String
deriving DecidableEq

/-- Synchronous outcome of `api_generate_analysis` (HTTP layer): 404 on a
missing tender or automation, 403 on a failed permission check, the route's
explicit 500 when the placeholder call returns `None`, a propagated uncaught
exception (FastAPI answers 500) when the placeholder call raises, and 202
with the new analysis id otherwise.  There is no Conflict (409) outcome on
any path of the route. -/
inductive SubmitOutcome where
  | notFoundTender
  | forbidden
  | notFoundAutomation
  | serverError
  | uncaughtError (e : String)
  | accepted (analysis_id : String)
deriving DecidableEq

/-- Function `api_generate_analysis` (`tenders/routes.py`): resolve the tender, check
the workspace permission, resolve the automation, create the PENDING
placeholder, hand the dispatcher off as a background task and answer 202.
The permission check and the automation lookup live in external collaborators
and enter as the `permission_ok` and `automation` arguments.  The route
performs these steps and nothing else — in particular it never consults
`check_for_existing_analysis`, and it does not catch the ValidationError
raised inside `create_placeholder_analysis`, which therefore propagates out
of the route. -/
def api_generate_analysis (db : Db) (tender_id automation_id : String)
    (name : Option String) (permission_ok : Bool) (automation : Option AutomationTarget)
    (user_id fresh_id : String) (now : Nat) : Db × SubmitOutcome :=
  match db.tenders.find? (fun t => decide (t._id = tender_id)) with
  | none => (db, .notFoundTender)
  | some _ =>
    if !permission_ok then (db, .forbidden)
    else
      match automation with
      | none => (db, .notFoundAutomation)
      | some auto =>
        match create_placeholder_analysis db tender_id automation_id user_id name auto.name
            fresh_id now with
        | (_, .error e) => (db, .uncaughtError e)
        | (db', .ok (some ph)) => (db', .accepted ph.id)
        | (_, .ok none) => (db, .serverError)

/-! ## Notification registry (`websocket/connection_manager.py`) -/

/-- A live push channel (a `WebSocket`); `failing` says whether a send on it
raises. -/
structure Channel where
  cid : Nat
  failing : Bool
deriving DecidableEq

/-- Messages the dispatcher pushes over a channel. -/
inductive PushMsg where
  | failedMsg (error : String)
  | completedMsg (result : AnalysisResult)
deriving DecidableEq

/-- Class `ConnectionManager` (`connection_manager.py`): `active_connections` is a
dict keyed by analysis id, holding the list of subscribed channels. -/
structure ConnectionManager where
  active_connections : List (String × List Channel)
deriving DecidableEq

/-- Dict lookup `active_connections[analysis_id]` (first entry with the key). -/
def ConnectionManager.topicChannels (cm : ConnectionManager) (analysis_id : String) :
    Option (List Channel) :=
  (cm.active_connections.find? (fun e => decide (e.1 = analysis_id))).map Prod.snd

/-- Dict write `active_connections[analysis_id] = l` on a present key. -/
def ConnectionManager.setTopic (cm : ConnectionManager) (analysis_id : String)
    (l : List Channel) : ConnectionManager :=
  ⟨updateFirst (fun e => decide (e.1 = analysis_id)) (fun e => (e.1, l))
      cm.active_connections⟩

/-- Method `ConnectionManager.connect`: accept the handshake and append the channel
under the topic, creating the dict entry when absent. -/
def ConnectionManager.connect (cm : ConnectionManager) (c : Channel) (analysis_id : String) :
    ConnectionManager :=
  match cm.topicChannels analysis_id with
  | some l => cm.setTopic analysis_id (l ++ [c])
  | none => ⟨cm.active_connections ++ [(analysis_id, [c])]⟩

/-- Method `ConnectionManager.disconnect`: `active_connections[analysis_id].remove(ws)`
guarded only by key presence.  It neither deletes an emptied entry nor guards
against an absent channel (`list.remove` raises `ValueError`, modelled as
`none`). -/
def ConnectionManager.disconnect (cm : ConnectionManager) (c : Channel) (analysis_id : String) :
    Option ConnectionManager :=
  match cm.topicChannels analysis_id with
  | none => some cm
  | some l =>
    if c ∈ l then some (cm.setTopic analysis_id (removeFirstBy (fun x => decide (x = c)) l))
    else none

/-- The loop body of `send_to_analysis_id`: iterate over a copy of the
channel list; a successful send delivers the message, a raising send removes
that channel (first occurrence) from the live list and the loop continues. -/
def sendLoop : List Channel → List Channel → List Channel × List Channel
  | [], cur => (cur, [])
  | c :: rest, cur =>
    if c.failing then
      sendLoop rest (removeFirstBy (fun x => decide (x = c)) cur)
    else
      let r := sendLoop rest cur
      (r.1, c :: r.2)

/-- Method `ConnectionManager.send_to_analysis_id`: publish `message` to every
channel under `analysis_id`; returns the updated registry and the
`(channel, message)` pairs actually delivered. -/
def ConnectionManager.send_to_analysis_id (cm : ConnectionManager) (message : PushMsg)
    (analysis_id : String) : ConnectionManager × List (Channel × PushMsg) :=
  match cm.topicChannels analysis_id with
  | none => (cm, [])
  | some l =>
    let r := sendLoop l l
    (cm.setTopic analysis_id r.1, r.2.map (fun c => (c, message)))

/-- Class `WebSocketManager` (`websocket/manager.py`): the user-id–keyed registry. -/
structure WebSocketManager where
  active_connections : List (String × List Channel)
deriving DecidableEq

/-- Method `WebSocketManager.disconnect`: remove the channel under `user_id` and, when
the list becomes empty, delete the dict entry; an absent channel's
`ValueError` is caught and ignored. -/
def WebSocketManager.disconnect (m : WebSocketManager) (c : Channel) (user_id : String) :
    WebSocketManager :=
  match (m.active_connections.find? (fun e => decide (e.1 = user_id))).map Prod.snd with
  | none => m
  | some l =>
    if c ∈ l then
      let l' := removeFirstBy (fun x => decide (x = c)) l
      if l'.isEmpty then
        ⟨removeFirstBy (fun e => decide (e.1 = user_id)) m.active_connections⟩
      else
        ⟨updateFirst (fun e => decide (e.1 = user_id)) (fun e => (e.1, l'))
            m.active_connections⟩
    else m

/-! ## Dispatcher (`run_analysis_in_background`, `tenders/routes.py`) -/

/-- Constant `max_retries` of the polling loop: `15 retries * 2 seconds sleep`. -/
def maxRetries : Nat := 15

/-- The polling loop: attempt `i` reads `resultDocAt i` (the state of the
`analysis_results` collection at that moment); stop at the first hit, give up
after the fuel (`max_retries`) is exhausted. -/
def pollForResult (resultDocAt : Nat → Option ResultDoc) : Nat → Nat → Option ResultDoc
  | _, 0 => none
  | i, Nat.succ fuel =>
    match resultDocAt i with
    | some doc => some doc
    | none => pollForResult resultDocAt (i + 1) fuel

/-- Error text of the `httpx` handler:
`f"Error from automation service: {e}"`. -/
def httpErrorText (e : String) : String :=
  "Error from automation service: " ++ e

/-- Error text when the polling loop exhausts its retries: the raised
`Exception` message, wrapped by the generic handler
(`f"An unexpected error occurred in background task: {e}"`). -/
def timeoutFailureText : String :=
  "An unexpected error occurred in background task: " ++
    "Analysis result not found in database after successful automation run (30s timeout)."

/-- Everything a dispatcher run leaves behind: the tender collection after the
PROCESSING write, the collection after the final write, the notification
registry, the deliveries made, the `send_to_analysis_id` pushes attempted (in
order), and whether the task died on an uncaught exception. -/
structure DispatchResult where
  dbAfterProcessing : Db
  dbFinal : Db
  cm : ConnectionManager
  delivered : List (Channel × PushMsg)
  pushes : List PushMsg
  crashed : Bool

/-- Function `run_analysis_in_background` (`tenders/routes.py`): mark PROCESSING, call
the automation (`http`), then either record the transport failure as FAILED
and push a FAILED message, or poll for the result document; a missing document
raises a timeout `Exception` handled by the generic `except` (FAILED + push),
and a found document is written back as COMPLETED, after which the `else`
block re-reads the analysis and pushes a COMPLETED message — calling
`.model_dump()` on `None` (an uncaught `AttributeError`, `crashed := true`)
when that re-read finds nothing.  `dbStart` is the tender collection when the
PROCESSING write runs and `dbAtFinal` the collection when the final write
runs; they differ when another actor (e.g. `delete_tender`) ran in between.
The audit logging between the final write and the re-read is effect-free on
this state and not modelled. -/
def run_analysis_in_background (dbStart dbAtFinal : Db) (cm : ConnectionManager)
    (tender_id analysis_id : String) (http : Except String Unit)
    (resultDocAt : Nat → Option ResultDoc) (nowP nowF : Nat) : DispatchResult :=
  let dbP := (update_analysis_result dbStart tender_id analysis_id .processing
      none none none false nowP).1
  match http with
  | .error e =>
    let msg := httpErrorText e
    let dbF := (update_analysis_result dbAtFinal tender_id analysis_id .failed
        none (some msg) none false nowF).1
    let s := cm.send_to_analysis_id (.failedMsg msg) analysis_id
    ⟨dbP, dbF, s.1, s.2, [.failedMsg msg], false⟩
  | .ok _ =>
    match pollForResult resultDocAt 0 maxRetries with
    | none =>
      let dbF := (update_analysis_result dbAtFinal tender_id analysis_id .failed
          none (some timeoutFailureText) none false nowF).1
      let s := cm.send_to_analysis_id (.failedMsg timeoutFailureText) analysis_id
      ⟨dbP, dbF, s.1, s.2, [.failedMsg timeoutFailureText], false⟩
    | some doc =>
      let dbF := (update_analysis_result dbAtFinal tender_id analysis_id .completed
          doc.data none none false nowF).1
      match get_analysis_by_id dbF tender_id analysis_id with
      | some a =>
        let s := cm.send_to_analysis_id (.completedMsg a) analysis_id
        ⟨dbP, dbF, s.1, s.2, [.completedMsg a], false⟩
      | none =>
        ⟨dbP, dbF, cm, [], [], true⟩

/-! ## Execution records and cancellation (`automations/routes.py`) -/

/-- An `AnalysisExecution` document (`automations/models.py`), restricted to
the fields `cancel_execution` reads or writes. -/
structure AnalysisExecution where
  id : String
  tender_id : String
  user_id : String
  status : ProcedureStatus
  completed_at : Option Nat := none
  error_message : Option String := none
  result : Option Payload := none
  result_summary : Option String := none
deriving DecidableEq

/-- The `executions` collection. -/
structure ExecDb where
  executions : List AnalysisExecution
deriving DecidableEq

/-- Class attributes defined on the `MongoDB` connection holder of
`tenders_utils.py`, the class `automations/models.py` imports: `client` and
`database` (assigned by `connect_to_database`).  No statement in the
repository assigns a `db` attribute to it. -/
def mongoDBAttributes : List String := ["client", "database"]

/-- Method `ExecutionsCollection.get_collection` (`automations/models.py`):
`return MongoDB.db["analysis_executions"]`.  The attribute access
`MongoDB.db` raises `AttributeError` (modelled as `none`) because `db` is not
among the attributes the imported `MongoDB` class defines. -/
def ExecutionsCollection.get_collection (db : ExecDb) : Option ExecDb :=
  if mongoDBAttributes.contains "db" then some db else none

/-- HTTP outcome of `cancel_execution`: a propagated `AttributeError`
(FastAPI answers 500), or — on the unreachable code path below it —
404, 403, 400 (non-live status), or 204 after the cancelling update. -/
inductive CancelOutcome where
  | attributeError
  | notFound
  | forbidden
  | badRequest
  | cancelled
deriving DecidableEq

/-- The fixed message `cancel_execution` writes:
`"Cancelado por el usuario"`. -/
def cancelErrorText : String := "Cancelado por el usuario"

/-- The `$set` document of the cancelling update: status CANCELLED,
`completed_at := now`, and the fixed error message. -/
def applyCancel (now : Nat) (e : AnalysisExecution) : AnalysisExecution :=
  { e with
    status := .cancelled
    completed_at := some now
    error_message := some cancelErrorText }

/-- Function `cancel_execution` (`automations/routes.py`).  Its first
statement calls `ExecutionsCollection.get_collection()`, which evaluates the
nonexistent `MongoDB.db` attribute, so every call raises `AttributeError`
before the execution is even looked up; the 404/403 checks, the
PENDING/PROCESSING-only guard, the cancelling `$set` (status CANCELLED,
`completed_at`, `error_message := cancelErrorText`) and the websocket
notification that follow in the source are unreachable. -/
def cancel_execution (db : ExecDb) (execution_id current_user : String) (now : Nat) :
    ExecDb × CancelOutcome :=
  match ExecutionsCollection.get_collection db with
  | none => (db, .attributeError)
  | some coll =>
    match coll.executions.find? (fun e => decide (e.id = execution_id)) with
    | none => (db, .notFound)
    | some ex =>
      if !decide (ex.user_id = current_user) then (db, .forbidden)
      else if !isLiveProc ex.status then (db, .badRequest)
      else
        (⟨updateFirst (fun e => decide (e.id = execution_id)) (applyCancel now)
            db.executions⟩, .cancelled)

/-! ## Generic lemmas about `updateFirst`, `removeFirstBy` and `sendLoop` -/

/-- Index of the first element satisfying `p` (the list length when none
does); follows the recursion of `updateFirst`. -/
def firstIdxBy (p : α → Bool) : List α → Nat
  | [] => 0
  | x :: xs => if p x then 0 else firstIdxBy p xs + 1

/-- Number of occurrences of an element in a list. -/
def countOcc [DecidableEq α] (c : α) : List α → Nat
  | [] => 0
  | x :: xs => (if x = c then 1 else 0) + countOcc c xs

theorem updateFirst_length (p : α → Bool) (f : α → α) (l : List α) :
    (updateFirst p f l).length = l.length := by
  induction l with
  | nil => rfl
  | cons x xs ih =>
    by_cases h : p x = true
    · simp [updateFirst, h]
    · simp only [Bool.not_eq_true] at h
      simp [updateFirst, h, ih]

theorem updateFirst_of_any_eq_false (p : α → Bool) (f : α → α) (l : List α)
    (h : l.any p = false) : updateFirst p f l = l := by
  induction l with
  | nil => rfl
  | cons x xs ih =>
    simp only [List.any_cons, Bool.or_eq_false_iff] at h
    simp [updateFirst, h.1, ih h.2]

theorem updateFirst_get?_ne (p : α → Bool) (f : α → α) (l : List α) (i : Nat)
    (h : i ≠ firstIdxBy p l) : (updateFirst p f l).get? i = l.get? i := by
  induction l generalizing i with
  | nil => rfl
  | cons x xs ih =>
    by_cases hx : p x = true
    · simp only [firstIdxBy, hx, if_true] at h
      obtain ⟨j, rfl⟩ := Nat.exists_eq_succ_of_ne_zero h
      simp [updateFirst, hx]
    · simp only [Bool.not_eq_true] at hx
      simp only [firstIdxBy, hx, Bool.false_eq_true, if_false] at h
      cases i with
      | zero => simp [updateFirst, hx]
      | succ j =>
        have hj : j ≠ firstIdxBy p xs := by omega
        simpa [updateFirst, hx] using ih j hj

theorem updateFirst_get?_eq (p : α → Bool) (f : α → α) (l : List α) (a : α)
    (h : l.get? (firstIdxBy p l) = some a) :
    p a = true ∧ (updateFirst p f l).get? (firstIdxBy p l) = some (f a) := by
  induction l with
  | nil => simp at h
  | cons x xs ih =>
    by_cases hx : p x = true
    · simp only [firstIdxBy, hx, if_true, List.get?] at h ⊢
      cases h
      exact ⟨hx, by simp [updateFirst, hx]⟩
    · simp only [Bool.not_eq_true] at hx
      simp only [firstIdxBy, hx, Bool.false_eq_true, if_false, List.get?] at h ⊢
      exact ⟨(ih h).1, by simpa [updateFirst, hx] using (ih h).2⟩

theorem find?_updateFirst_pres (p q : α → Bool) (f : α → α) (l : List α)
    (hpres : ∀ x, q (f x) = q x) (hq : ∀ x, p x = true ↔ q x = true) :
    (updateFirst p f l).find? q = (l.find? q).map f := by
  induction l with
  | nil => rfl
  | cons x xs ih =>
    by_cases hx : p x = true
    · have hqx : q x = true := (hq x).mp hx
      have : q (f x) = true := by rw [hpres]; exact hqx
      simp [updateFirst, hx, List.find?, hqx, this]
    · simp only [Bool.not_eq_true] at hx
      have hqx : q x = false := by
        cases hqx : q x
        · rfl
        · exact absurd ((hq x).mpr hqx) (by simp [hx])
      simp [updateFirst, hx, List.find?, hqx, ih]

theorem find?_updateFirst_disjoint (p q : α → Bool) (f : α → α) (l : List α)
    (hdis : ∀ x, p x = true → q x = false ∧ q (f x) = false) :
    (updateFirst p f l).find? q = l.find? q := by
  induction l with
  | nil => rfl
  | cons x xs ih =>
    by_cases hx : p x = true
    · obtain ⟨h1, h2⟩ := hdis x hx
      simp [updateFirst, hx, List.find?, h1, h2]
    · simp only [Bool.not_eq_true] at hx
      cases hqx : q x
      · simp [updateFirst, hx, List.find?, hqx, ih]
      · simp [updateFirst, hx, List.find?, hqx]

theorem find?_removeFirstBy_self (q : α → Bool) (l : List α)
    (hnd : (l.filter q).length ≤ 1) :
    (removeFirstBy q l).find? q = none := by
  induction l with
  | nil => rfl
  | cons x xs ih =>
    cases hqx : q x
    · have : (xs.filter q).length ≤ 1 := by
        simpa [List.filter, hqx] using hnd
      simp [removeFirstBy, hqx, List.find?, ih this]
    · have hcons : (x :: xs).filter q = x :: xs.filter q := by
        simp [List.filter_cons, hqx]
      have : (xs.filter q).length = 0 := by
        rw [hcons] at hnd
        simp only [List.length_cons] at hnd
        omega
      have hnone : xs.find? q = none := by
        rw [List.find?_eq_none]
        intro y hy hqy
        have : y ∈ xs.filter q := List.mem_filter.mpr ⟨hy, hqy⟩
        simp [List.length_eq_zero.mp ‹(xs.filter q).length = 0›] at this
      simp [removeFirstBy, hqx, hnone]

theorem any_updateFirst_pres (r q : α → Bool) (g : α → α) (l : List α)
    (hg : ∀ x, r (g x) = r x) : (updateFirst q g l).any r = l.any r := by
  induction l with
  | nil => rfl
  | cons x xs ih =>
    by_cases hx : q x = true
    · simp [updateFirst, hx, List.any_cons, hg]
    · simp only [Bool.not_eq_true] at hx
      simp [updateFirst, hx, List.any_cons, ih]

/-! ## Lifecycle-manager lemmas -/

theorem setAnalysisFields_id (st : AnalysisStatus) (d : Option Payload)
    (em : Option String) (pt : Option Nat) (cps : Bool) (now : Nat) (a : AnalysisResult) :
    (setAnalysisFields st d em pt cps now a).id = a.id := rfl

theorem tenderMatches_setInTender (tender_id analysis_id : String)
    (g : AnalysisResult → AnalysisResult) (hg : ∀ a, (g a).id = a.id) (t : Tender) :
    tenderMatches tender_id analysis_id (setInTender analysis_id g t)
      = tenderMatches tender_id analysis_id t := by
  unfold tenderMatches setInTender
  simp only
  rw [any_updateFirst_pres]
  intro a
  simp [hg a]

/-- Lookup `get_analysis_by_id` misses exactly when the conditional-update filter
matches nothing. -/
theorem get_analysis_by_id_eq_none_iff (db : Db) (tender_id analysis_id : String) :
    get_analysis_by_id db tender_id analysis_id = none
      ↔ db.tenders.any (tenderMatches tender_id analysis_id) = false := by
  unfold get_analysis_by_id
  constructor
  · intro h
    cases hf : db.tenders.find? (tenderMatches tender_id analysis_id) with
    | none =>
      rw [List.find?_eq_none] at hf
      cases hany : db.tenders.any (tenderMatches tender_id analysis_id)
      · rfl
      · obtain ⟨t, ht, hpt⟩ := List.any_eq_true.mp hany
        exact absurd hpt (hf t ht)
    | some t =>
      have hpt : tenderMatches tender_id analysis_id t = true := List.find?_some hf
      have hany : t.analysis_results.any (fun a => decide (a.id = analysis_id)) = true := by
        unfold tenderMatches at hpt
        rw [Bool.and_eq_true] at hpt
        exact hpt.2
      obtain ⟨a, ha, hqa⟩ := List.any_eq_true.mp hany
      rw [hf] at h
      have : t.analysis_results.find? (fun a => decide (a.id = analysis_id)) = none := h
      rw [List.find?_eq_none] at this
      exact absurd hqa (this a ha)
  · intro h
    have hf : db.tenders.find? (tenderMatches tender_id analysis_id) = none := by
      rw [List.find?_eq_none]
      intro t ht hpt
      have : db.tenders.any (tenderMatches tender_id analysis_id) = true :=
        List.any_eq_true.mpr ⟨t, ht, hpt⟩
      rw [h] at this
      exact Bool.false_ne_true this
    rw [hf]

/-- A missed filter makes `update_analysis_result` a no-op returning `false`. -/
theorem update_analysis_result_noop (db : Db) (tender_id analysis_id : String)
    (st : AnalysisStatus) (d : Option Payload) (em : Option String) (pt : Option Nat)
    (cps : Bool) (now : Nat)
    (h : get_analysis_by_id db tender_id analysis_id = none) :
    update_analysis_result db tender_id analysis_id st d em pt cps now = (db, false) := by
  have hany := (get_analysis_by_id_eq_none_iff db tender_id analysis_id).mp h
  unfold update_analysis_result
  simp [hany]

/-- A matched filter makes `update_analysis_result` report a modification and
rewrite exactly the matched analysis with the `$set` document
(`setAnalysisFields`), as observed through `get_analysis_by_id`. -/
theorem update_analysis_result_get (db : Db) (tender_id analysis_id : String)
    (st : AnalysisStatus) (d : Option Payload) (em : Option String) (pt : Option Nat)
    (cps : Bool) (now : Nat) (a : AnalysisResult)
    (h : get_analysis_by_id db tender_id analysis_id = some a) :
    (update_analysis_result db tender_id analysis_id st d em pt cps now).2 = true ∧
    get_analysis_by_id (update_analysis_result db tender_id analysis_id st d em pt cps now).1
        tender_id analysis_id
      = some (setAnalysisFields st d em pt cps now a) := by
  obtain ⟨t₀, hf, hfa⟩ :
      ∃ t₀, db.tenders.find? (tenderMatches tender_id analysis_id) = some t₀ ∧
        t₀.analysis_results.find? (fun x => decide (x.id = analysis_id)) = some a := by
    unfold get_analysis_by_id at h
    cases hf : db.tenders.find? (tenderMatches tender_id analysis_id) with
    | none => rw [hf] at h; exact absurd h (by simp)
    | some t₀ => rw [hf] at h; exact ⟨t₀, rfl, h⟩
  have hany : db.tenders.any (tenderMatches tender_id analysis_id) = true :=
    List.any_eq_true.mpr
      ⟨t₀, List.mem_of_find?_eq_some hf, List.find?_some hf⟩
  have hidpres : ∀ x, (setAnalysisFields st d em pt cps now x).id = x.id := fun _ => rfl
  constructor
  · unfold update_analysis_result
    simp [hany]
  · unfold update_analysis_result
    simp only [hany, if_true]
    unfold get_analysis_by_id
    rw [find?_updateFirst_pres _ _ _ _
        (fun t => tenderMatches_setInTender tender_id analysis_id _ hidpres t)
        (fun _ => Iff.rfl)]
    rw [hf]
    simp only [Option.map_some']
    unfold setInTender
    simp only
    rw [find?_updateFirst_pres _ _ _ _ (fun x => by simp [hidpres x]) (fun _ => Iff.rfl)]
    rw [hfa]
    rfl

/-! ## Concrete fixtures -/

/-- A PENDING analysis `J1` of automation `A1`, embedded in tender `T1`. -/
def fixPending : AnalysisResult :=
  { id := "J1"
    name := "Analysis J1"
    procedure_id := "A1"
    procedure_name := "Auto"
    created_by := "U"
    created_at := 0
    status := .pending
    pending_since := some 1 }

/-- A tender `T1` embedding `fixPending`. -/
def fixTender : Tender := { _id := "T1", analysis_results := [fixPending], updated_at := 0 }

/-- A one-tender collection. -/
def fixDb : Db := ⟨[fixTender]⟩

/-- The collection after `T1` has been deleted. -/
def fixDeletedDb : Db := ⟨[]⟩

/-- A live, never-failing subscriber channel. -/
def fixSubscriber : Channel := ⟨0, false⟩

/-- A registry with `fixSubscriber` subscribed on the `J1` topic. -/
def fixCm : ConnectionManager := ⟨[("J1", [fixSubscriber])]⟩

/-- The automation target resolved by the submit route. -/
def fixAuto : AutomationTarget := ⟨"http://n8n/webhook", "Auto"⟩

/-- A result document carrying a data payload, present from the first poll. -/
def fixDocAt : Nat → Option ResultDoc := fun _ => some ⟨some [("k", "v")]⟩

/-- The analysis of `fixDb` driven to COMPLETED. -/
def fixDone : AnalysisResult := { fixPending with status := .completed, data := some [("x", "1")] }

/-- A collection whose only analysis is terminal (COMPLETED). -/
def fixDoneDb : Db := ⟨[{ fixTender with analysis_results := [fixDone] }]⟩

/-- A PENDING execution record owned by user `U`. -/
def fixExecPending : AnalysisExecution :=
  { id := "E1", tender_id := "T1", user_id := "U", status := .pending }

/-- An executions collection with one live execution. -/
def fixExecDb : ExecDb := ⟨[fixExecPending]⟩

/-! ## Claim C1 -/

/-- Claim C1. The claim says a submission for a (tender, automation) pair
with a live (PENDING/PROCESSING) analysis is rejected with Conflict before
any placeholder is created, and that a submission made after the prior
analysis reaches COMPLETED succeeds.  The code refutes both halves.  With
`J1` for automation `A1` still PENDING inside `T1`,
`check_for_existing_analysis` does flag the live duplicate, but
`api_generate_analysis` never consults it and has no Conflict path at all;
instead the submission — and equally a submission made after the analysis is
COMPLETED — dies on the pydantic ValidationError inside
`create_placeholder_analysis` (the required `data` field is never passed),
propagating out of the route as a 500 with nothing written, so the duplicate
is not answered with Conflict and the post-COMPLETED submission does not
succeed either. -/
theorem C1_submission_never_conflict_checked :
    check_for_existing_analysis fixDb "T1" "A1" = true ∧
    api_generate_analysis fixDb "T1" "A1" none true (some fixAuto) "U" "J2" 5
      = (fixDb, SubmitOutcome.uncaughtError validationErrorText) ∧
    api_generate_analysis fixDoneDb "T1" "A1" none true (some fixAuto) "U" "J2" 5
      = (fixDoneDb, SubmitOutcome.uncaughtError validationErrorText) := by
  refine ⟨rfl, rfl, rfl⟩

/-! ## Claim C2 -/

/-- Claim C2. The claim says the dispatcher re-resolves the parent by job id
before the final write and that a live subscriber still receives exactly one
terminal-style notification when the parent was deleted mid-flight.  The code
refutes the notification half: with `T1` deleted before the final write
(`fixDeletedDb`) while the automation call succeeded and the result document
exists, the final write is a conditional no-op (nothing is resurrected — that
half of the claim holds, and a re-resolution by job id would have reported
the parent gone), but the dispatcher instead re-reads the analysis through
the original tender id, gets `None`, and dies on `None.model_dump()` in the
`else` block: zero push attempts are made and the live subscriber on `J1`
receives zero notifications, not exactly one. -/
theorem C2_deleted_parent_kills_notification :
    get_tender_by_analysis_id fixDeletedDb "J1" = none ∧
    (run_analysis_in_background fixDb fixDeletedDb fixCm "T1" "J1" (Except.ok ()) fixDocAt 2 3).dbFinal
      = fixDeletedDb ∧
    (run_analysis_in_background fixDb fixDeletedDb fixCm "T1" "J1" (Except.ok ()) fixDocAt 2 3).pushes
      = [] ∧
    (run_analysis_in_background fixDb fixDeletedDb fixCm "T1" "J1" (Except.ok ()) fixDocAt 2 3).delivered
      = [] ∧
    (run_analysis_in_background fixDb fixDeletedDb fixCm "T1" "J1" (Except.ok ()) fixDocAt 2 3).crashed
      = true := by
  refine ⟨rfl, rfl, rfl, rfl, rfl⟩

/-! ## Claim C3 -/

/-- Claim C3, counterexample. The claim says that once an analysis is terminal no
update operation mutates any of its fields again.  In the code
`update_analysis_result` carries no guard on the current status: invoked on
the COMPLETED analysis `J1` it rewrites `status`, `error_message` and
`updated_at` in place. -/
theorem C3_counterexample_terminal_record_mutates :
    (get_analysis_by_id fixDoneDb "T1" "J1").map (fun a => isTerminal a.status) = some true ∧
    (get_analysis_by_id
        (update_analysis_result fixDoneDb "T1" "J1" .failed none (some "late") none false 7).1
        "T1" "J1").map (fun a => (a.status, a.error_message, a.updated_at))
      = some (AnalysisStatus.failed, some "late", some 7) := by
  refine ⟨rfl, rfl⟩

/-- Claim C3, amended. Every stored status is drawn from the enumerated sets
(the embedded `AnalysisStatus` has only PENDING/PROCESSING/COMPLETED/FAILED;
the execution-level `ProcedureStatus` adds CANCELLED); but terminal records
are not protected: `update_analysis_result` applies its `$set` regardless of
the current status, so a terminal record is mutated again (new status and
`updated_at`) whenever that operation is invoked on it.  (The cancel
endpoint, the one operation with a live-status guard, raises on the missing
`MongoDB.db` attribute before its guard can run.) -/
theorem C3_amended_statuses_and_unguarded_update :
    (∀ s : AnalysisStatus, s = .pending ∨ s = .processing ∨ s = .completed ∨ s = .failed) ∧
    (∀ s : ProcedureStatus,
        s = .pending ∨ s = .processing ∨ s = .completed ∨ s = .failed ∨ s = .cancelled) ∧
    (∀ (db : Db) (tid aid : String) (st : AnalysisStatus) (d : Option Payload)
        (em : Option String) (pt : Option Nat) (cps : Bool) (now : Nat) (a : AnalysisResult),
        get_analysis_by_id db tid aid = some a →
        isTerminal a.status = true →
        ∃ a', get_analysis_by_id (update_analysis_result db tid aid st d em pt cps now).1 tid aid
            = some a' ∧ a'.status = st ∧ a'.updated_at = some now) := by
  refine ⟨?_, ?_, ?_⟩
  · intro s; cases s <;> simp
  · intro s; cases s <;> simp
  · intro db tid aid st d em pt cps now a hget _
    exact ⟨setAnalysisFields st d em pt cps now a,
      (update_analysis_result_get db tid aid st d em pt cps now a hget).2, rfl, rfl⟩

/-- Claim C3, witness. The amended theorem applied to a concrete store:
`update_analysis_result` rewrites the COMPLETED analysis `J1` anyway. -/
theorem C3_amended_witness :
    ∃ a', get_analysis_by_id
        (update_analysis_result fixDoneDb "T1" "J1" .processing none none none false 9).1
        "T1" "J1" = some a' ∧ a'.status = .processing ∧ a'.updated_at = some 9 :=
  C3_amended_statuses_and_unguarded_update.2.2 fixDoneDb "T1" "J1" .processing
    none none none false 9 fixDone rfl rfl

/-- The tender collection a dispatcher run leaves behind, by case on the
transport outcome and the polling outcome (the crash in the `else` block
happens after the final write, so it does not change the written state). -/
theorem run_analysis_in_background_dbFinal (dbS dbF : Db) (cm : ConnectionManager)
    (tid aid : String) (http : Except String Unit) (poll : Nat → Option ResultDoc)
    (nP nF : Nat) :
    (run_analysis_in_background dbS dbF cm tid aid http poll nP nF).dbFinal =
      match http with
      | .error e =>
        (update_analysis_result dbF tid aid .failed none (some (httpErrorText e)) none false nF).1
      | .ok _ =>
        match pollForResult poll 0 maxRetries with
        | none =>
          (update_analysis_result dbF tid aid .failed none (some timeoutFailureText)
            none false nF).1
        | some doc =>
          (update_analysis_result dbF tid aid .completed doc.data none none false nF).1 := by
  cases http with
  | error e => rfl
  | ok u =>
    unfold run_analysis_in_background
    cases hpoll : pollForResult poll 0 maxRetries with
    | none => simp [hpoll]
    | some doc =>
      simp only [hpoll]
      cases hg : get_analysis_by_id
          (update_analysis_result dbF tid aid .completed doc.data none none false nF).1 tid aid with
      | none => simp [hg]
      | some a => simp [hg]

/-! ## Claim C4 -/

/-- Claim C4, counterexample. The claim says a COMPLETED job always carries a
non-null result.  On the concrete run whose automation call succeeds but
whose polled result document carries no `data` payload, the COMPLETED update
skips the falsy `data` and the job ends COMPLETED with `data = none`. -/
theorem C4_counterexample_completed_null_result :
    ∃ a', get_analysis_by_id
        (run_analysis_in_background fixDb fixDb fixCm "T1" "J1" (Except.ok ())
          (fun _ => some ⟨none⟩) 2 3).dbFinal "T1" "J1"
        = some a' ∧ a'.status = .completed ∧ a'.data = none := by
  exact ⟨_, rfl, rfl, rfl⟩

/-- Claim C4, amended. The dispatcher — the only operation that ever writes
these fields — writes `error_message` only when it marks the job FAILED and
writes `data` only when it marks it COMPLETED, but COMPLETED does not
guarantee a non-null result (a result document without a `data` payload
leaves the stored, possibly null, value).  The CANCELLED clause is vacuous:
`cancel_execution`, the only writer of CANCELLED, raises on the nonexistent
`MongoDB.db` attribute before reading or writing anything, so no operation
ever produces a CANCELLED record. -/
theorem C4_amended_field_discipline :
    (∀ (dbS dbF : Db) (cm : ConnectionManager) (tid aid : String)
        (http : Except String Unit) (poll : Nat → Option ResultDoc) (nP nF : Nat)
        (a : AnalysisResult),
        get_analysis_by_id dbF tid aid = some a →
        ∃ a', get_analysis_by_id
            (run_analysis_in_background dbS dbF cm tid aid http poll nP nF).dbFinal tid aid
            = some a' ∧
          (a'.error_message ≠ a.error_message → a'.status = .failed) ∧
          (a'.data ≠ a.data → a'.status = .completed)) ∧
    (∀ (db : ExecDb) (eid u : String) (now : Nat),
        cancel_execution db eid u now = (db, .attributeError)) := by
  refine ⟨?_, ?_⟩
  · intro dbS dbF cm tid aid http poll nP nF a hget
    rw [run_analysis_in_background_dbFinal]
    cases http with
    | error e =>
      exact ⟨setAnalysisFields .failed none (some (httpErrorText e)) none false nF a,
        (update_analysis_result_get dbF tid aid .failed none (some (httpErrorText e))
          none false nF a hget).2,
        fun _ => rfl, fun h => absurd rfl h⟩
    | ok u =>
      cases hpoll : pollForResult poll 0 maxRetries with
      | none =>
        exact ⟨setAnalysisFields .failed none (some timeoutFailureText) none false nF a,
          (update_analysis_result_get dbF tid aid .failed none (some timeoutFailureText)
            none false nF a hget).2,
          fun _ => rfl, fun h => absurd rfl h⟩
      | some doc =>
        exact ⟨setAnalysisFields .completed doc.data none none false nF a,
          (update_analysis_result_get dbF tid aid .completed doc.data
            none none false nF a hget).2,
          fun h => absurd rfl h, fun _ => rfl⟩
  · intro db eid u now
    rfl

/-- Claim C4, witness. The amended theorem applied to concrete runs: a
transport failure on `T1`/`J1`, and the cancel endpoint raising on its first
statement for the live execution `E1`. -/
theorem C4_amended_witness :
    (∃ a', get_analysis_by_id
        (run_analysis_in_background fixDb fixDb fixCm "T1" "J1"
          (Except.error "boom") (fun _ => none) 2 3).dbFinal "T1" "J1"
        = some a' ∧
      (a'.error_message ≠ fixPending.error_message → a'.status = .failed) ∧
      (a'.data ≠ fixPending.data → a'.status = .completed)) ∧
    cancel_execution fixExecDb "E1" "U" 9 = (fixExecDb, .attributeError) :=
  ⟨C4_amended_field_discipline.1 fixDb fixDb fixCm "T1" "J1" (Except.error "boom")
      (fun _ => none) 2 3 fixPending rfl,
    C4_amended_field_discipline.2 fixExecDb "E1" "U" 9⟩

/-! ## Claim C5 -/

/-- The transport-failure message is never empty, so the Python truthiness
check `if error_message:` always accepts it. -/
theorem truthyStr_httpErrorText (e : String) : truthyStr (some (httpErrorText e)) = true := by
  unfold truthyStr httpErrorText
  cases h : ("Error from automation service: " ++ e).isEmpty
  · rfl
  · exfalso
    have h2 := (String.isEmpty_iff _).mp h
    have h3 := congrArg String.length h2
    rw [String.length_append] at h3
    have h4 : ("Error from automation service: " : String).length = 31 := by decide
    have h5 : ("" : String).length = 0 := by decide
    rw [h4, h5] at h3
    omega

/-- Claim C5, counterexample. The claim says a transport-level failure leaves
the job FAILED with a non-null `error_message` **and a cleared (null)
`pending_since`**.  On the concrete transport failure the job does end FAILED
with the captured error, but `pending_since` still holds its old value
`some 1`: the dispatcher's FAILED update never passes
`clear_pending_since=True` (it defaults to false), so nothing is cleared. -/
theorem C5_counterexample_pending_since_kept :
    fixPending.pending_since = some 1 ∧
    (get_analysis_by_id
        (run_analysis_in_background fixDb fixDb fixCm "T1" "J1"
          (Except.error "connection refused") (fun _ => none) 2 3).dbFinal "T1" "J1").map
      (fun a => (a.status, a.error_message, a.pending_since))
      = some (AnalysisStatus.failed,
          some (httpErrorText "connection refused"), some 1) := by
  refine ⟨rfl, rfl⟩

/-- Claim C5, amended. A transport-level automation failure leaves the job
FAILED with the non-null captured error message, but `pending_since` is left
unchanged rather than cleared: the dispatcher's failure-path update does not
request `clear_pending_since`. -/
theorem C5_amended_transport_failure (dbS dbF : Db) (cm : ConnectionManager)
    (tid aid e : String) (poll : Nat → Option ResultDoc) (nP nF : Nat)
    (a : AnalysisResult) (hget : get_analysis_by_id dbF tid aid = some a) :
    ∃ a', get_analysis_by_id
        (run_analysis_in_background dbS dbF cm tid aid (Except.error e) poll nP nF).dbFinal
        tid aid = some a' ∧
      a'.status = .failed ∧
      a'.error_message = some (httpErrorText e) ∧
      a'.pending_since = a.pending_since := by
  rw [run_analysis_in_background_dbFinal]
  refine ⟨setAnalysisFields .failed none (some (httpErrorText e)) none false nF a,
    (update_analysis_result_get dbF tid aid .failed none (some (httpErrorText e))
      none false nF a hget).2, rfl, ?_, rfl⟩
  show (if truthyStr (some (httpErrorText e)) then some (httpErrorText e)
      else a.error_message) = some (httpErrorText e)
  rw [truthyStr_httpErrorText]
  rfl

/-- Claim C5, witness. The amended theorem at the concrete transport failure on
`T1`/`J1`. -/
theorem C5_amended_witness :
    ∃ a', get_analysis_by_id
        (run_analysis_in_background fixDb fixDb fixCm "T1" "J1"
          (Except.error "boom") (fun _ => none) 2 3).dbFinal "T1" "J1" = some a' ∧
      a'.status = .failed ∧
      a'.error_message = some (httpErrorText "boom") ∧
      a'.pending_since = fixPending.pending_since :=
  C5_amended_transport_failure fixDb fixDb fixCm "T1" "J1" "boom" (fun _ => none) 2 3
    fixPending rfl

/-! ## Claim C6 -/

/-- The boolean `update_analysis_result` returns is exactly "some tender
matched the filter". -/
theorem update_analysis_result_snd (db : Db) (tid aid : String) (st : AnalysisStatus)
    (d : Option Payload) (em : Option String) (pt : Option Nat) (cps : Bool) (now : Nat) :
    (update_analysis_result db tid aid st d em pt cps now).2
      = db.tenders.any (tenderMatches tid aid) := by
  unfold update_analysis_result
  by_cases h : db.tenders.any (tenderMatches tid aid) = true
  · simp [h]
  · simp only [Bool.not_eq_true] at h
    simp [h]

/-- Claim C6. `update_analysis_result` is a targeted match-then-set conditional
update: it reports `true` exactly when the parent tender still embeds the
analysis; a missed match leaves the collection untouched (no exception, no
partial write — the operation is total and returns the input state); and a
hit rewrites exactly the matched analysis with the `$set` document, as
observed through `get_analysis_by_id`. -/
theorem C6_update_conditional (db : Db) (tid aid : String) (st : AnalysisStatus)
    (d : Option Payload) (em : Option String) (pt : Option Nat) (cps : Bool) (now : Nat) :
    ((update_analysis_result db tid aid st d em pt cps now).2 = true
        ↔ ∃ t ∈ db.tenders, t._id = tid ∧ ∃ a ∈ t.analysis_results, a.id = aid) ∧
    ((update_analysis_result db tid aid st d em pt cps now).2 = false →
        (update_analysis_result db tid aid st d em pt cps now).1 = db) ∧
    (∀ a, get_analysis_by_id db tid aid = some a →
        get_analysis_by_id (update_analysis_result db tid aid st d em pt cps now).1 tid aid
          = some (setAnalysisFields st d em pt cps now a)) := by
  refine ⟨?_, ?_, ?_⟩
  · rw [update_analysis_result_snd]
    simp [List.any_eq_true, tenderMatches, Bool.and_eq_true, decide_eq_true_eq]
  · intro h
    rw [update_analysis_result_snd] at h
    unfold update_analysis_result
    simp [h]
  · intro a hget
    exact (update_analysis_result_get db tid aid st d em pt cps now a hget).2

/-- Claim C6, witness. On the emptied collection the update is a no-op
returning the input state; on `fixDb` it rewrites `J1` in place. -/
theorem C6_update_conditional_witness :
    (update_analysis_result fixDeletedDb "T1" "J1" .processing none none none false 2).1
      = fixDeletedDb ∧
    get_analysis_by_id
        (update_analysis_result fixDb "T1" "J1" .processing none none none false 2).1
        "T1" "J1"
      = some (setAnalysisFields .processing none none none false 2 fixPending) :=
  ⟨(C6_update_conditional fixDeletedDb "T1" "J1" .processing none none none false 2).2.1 rfl,
    (C6_update_conditional fixDb "T1" "J1" .processing none none none false 2).2.2
      fixPending rfl⟩

/-! ## Claim C7 -/

/-- The channels a publish loop delivers to are exactly the non-failing
channels of the call-time snapshot, in order. -/
theorem sendLoop_snd (copy cur : List Channel) :
    (sendLoop copy cur).2 = copy.filter (fun c => !c.failing) := by
  induction copy generalizing cur with
  | nil => rfl
  | cons c rest ih =>
    by_cases hc : c.failing = true
    · simp [sendLoop, hc, List.filter_cons, ih]
    · simp only [Bool.not_eq_true] at hc
      simp [sendLoop, hc, List.filter_cons, ih]

theorem mem_iff_countOcc_pos [DecidableEq α] (c : α) (l : List α) :
    c ∈ l ↔ 0 < countOcc c l := by
  induction l with
  | nil => simp [countOcc]
  | cons x xs ih =>
    by_cases hx : x = c
    · subst hx; simp [countOcc]
    · simp [countOcc, hx, ih, Ne.symm hx]

theorem countOcc_removeFirstBy_self [DecidableEq α] (c : α) (l : List α) :
    countOcc c (removeFirstBy (fun y => decide (y = c)) l) = countOcc c l - 1 := by
  induction l with
  | nil => rfl
  | cons x xs ih =>
    by_cases hx : x = c
    · subst hx; simp [removeFirstBy, countOcc]
    · simp [removeFirstBy, hx, countOcc, ih]

theorem countOcc_removeFirstBy_ne [DecidableEq α] (x c : α) (h : x ≠ c) (l : List α) :
    countOcc c (removeFirstBy (fun y => decide (y = x)) l) = countOcc c l := by
  induction l with
  | nil => rfl
  | cons y ys ih =>
    by_cases hy : y = x
    · subst hy; simp [removeFirstBy, countOcc, h]
    · simp [removeFirstBy, hy, countOcc, ih]

/-- Every occurrence of a failing channel in the call-time snapshot removes
one occurrence from the live list. -/
theorem sendLoop_fst_countOcc (c : Channel) (hc : c.failing = true) :
    ∀ (copy cur : List Channel),
      countOcc c (sendLoop copy cur).1 = countOcc c cur - countOcc c copy := by
  intro copy
  induction copy with
  | nil => intro cur; simp [sendLoop, countOcc]
  | cons x rest ih =>
    intro cur
    by_cases hx : x.failing = true
    · by_cases hxc : x = c
      · subst hxc
        rw [sendLoop, if_pos hx, ih, countOcc_removeFirstBy_self]
        have hcnt : countOcc x (x :: rest) = 1 + countOcc x rest := by
          simp [countOcc]
        rw [hcnt]
        omega
      · rw [sendLoop, if_pos hx, ih, countOcc_removeFirstBy_ne x c hxc]
        have hcnt : countOcc c (x :: rest) = countOcc c rest := by
          simp [countOcc, hxc]
        rw [hcnt]
    · have hxc : x ≠ c := fun h => by rw [h, hc] at hx; exact hx rfl
      simp only [Bool.not_eq_true] at hx
      rw [sendLoop, if_neg (by simp [hx])]
      have hcnt : countOcc c (x :: rest) = countOcc c rest := by
        simp [countOcc, hxc]
      rw [hcnt]
      exact ih cur

/-- Rewriting one topic's channel list leaves every other topic's lookup
unchanged. -/
theorem topicChannels_setTopic_other (cm : ConnectionManager) (topic t : String)
    (l' : List Channel) (h : t ≠ topic) :
    (cm.setTopic topic l').topicChannels t = cm.topicChannels t := by
  unfold ConnectionManager.topicChannels ConnectionManager.setTopic
  rw [find?_updateFirst_disjoint]
  intro x hx
  rw [decide_eq_true_eq] at hx
  have hne : ¬(x.1 = t) := by rw [hx]; exact fun heq => h heq.symm
  exact ⟨decide_eq_false hne, decide_eq_false hne⟩

/-- Rewriting a present topic's channel list is observed by the lookup. -/
theorem topicChannels_setTopic_self (cm : ConnectionManager) (topic : String)
    (l l' : List Channel) (h : cm.topicChannels topic = some l) :
    (cm.setTopic topic l').topicChannels topic = some l' := by
  unfold ConnectionManager.topicChannels ConnectionManager.setTopic
  have hpres : ∀ x : String × List Channel,
      (fun e => decide (e.1 = topic)) ((fun e => (e.1, l')) x)
        = (fun e => decide (e.1 = topic)) x := fun x => rfl
  rw [find?_updateFirst_pres (fun e => decide (e.1 = topic)) (fun e => decide (e.1 = topic))
      (fun e => (e.1, l')) cm.active_connections hpres (fun x => Iff.rfl)]
  unfold ConnectionManager.topicChannels at h
  cases hf : cm.active_connections.find? (fun e => decide (e.1 = topic)) with
  | none => rw [hf] at h; exact absurd h (by simp)
  | some x => rfl

/-- Claim C7. A publish to a topic delivers the message to every non-failing
channel subscribed there at call time; everything delivered went to a
call-time subscriber of that topic with the published message (so channels of
other topics, and channels unsubscribed before the call, receive nothing);
other topics' registrations are untouched; and a channel whose delivery
fails is removed from the topic's registration. -/
theorem C7_publish_delivery (cm : ConnectionManager) (msg : PushMsg) (topic : String)
    (l : List Channel) (hl : cm.topicChannels topic = some l) :
    (∀ c ∈ l, c.failing = false →
        (c, msg) ∈ (cm.send_to_analysis_id msg topic).2) ∧
    (∀ pr ∈ (cm.send_to_analysis_id msg topic).2,
        pr.1 ∈ l ∧ pr.1.failing = false ∧ pr.2 = msg) ∧
    (∀ c : Channel, c ∉ l → (c, msg) ∉ (cm.send_to_analysis_id msg topic).2) ∧
    (∀ t, t ≠ topic →
        (cm.send_to_analysis_id msg topic).1.topicChannels t = cm.topicChannels t) ∧
    (∀ c ∈ l, c.failing = true →
        ∃ l', (cm.send_to_analysis_id msg topic).1.topicChannels topic = some l' ∧
          countOcc c l' = 0) := by
  have hsend : cm.send_to_analysis_id msg topic
      = (cm.setTopic topic (sendLoop l l).1, (sendLoop l l).2.map (fun c => (c, msg))) := by
    unfold ConnectionManager.send_to_analysis_id
    rw [hl]
  refine ⟨?_, ?_, ?_, ?_, ?_⟩
  · intro c hc hfail
    rw [hsend]
    simp only [sendLoop_snd, List.mem_map]
    exact ⟨c, List.mem_filter.mpr ⟨hc, by simp [hfail]⟩, rfl⟩
  · intro pr hpr
    rw [hsend] at hpr
    simp only [sendLoop_snd, List.mem_map] at hpr
    obtain ⟨c, hcf, rfl⟩ := hpr
    have := List.mem_filter.mp hcf
    exact ⟨this.1, by simpa using this.2, rfl⟩
  · intro c hc hmem
    rw [hsend] at hmem
    simp only [sendLoop_snd, List.mem_map] at hmem
    obtain ⟨c', hcf, heq⟩ := hmem
    have := List.mem_filter.mp hcf
    cases heq
    exact hc this.1
  · intro t ht
    rw [hsend]
    exact topicChannels_setTopic_other cm topic t _ ht
  · intro c _ hfail
    rw [hsend]
    refine ⟨(sendLoop l l).1, topicChannels_setTopic_self cm topic l _ hl, ?_⟩
    rw [sendLoop_fst_countOcc c hfail l l]
    omega

/-- Claim C7, witness. A registry with a failing and a live channel on `J1` and
a live channel on `J2`: the live `J1` channel is delivered to, and the
failing channel ends up removed from `J1`'s registration. -/
theorem C7_publish_delivery_witness :
    ((⟨1, false⟩ : Channel), PushMsg.failedMsg "e")
      ∈ ((⟨[("J1", [⟨0, true⟩, ⟨1, false⟩]), ("J2", [⟨2, false⟩])]⟩ :
          ConnectionManager).send_to_analysis_id (.failedMsg "e") "J1").2 ∧
    (∃ l', ((⟨[("J1", [⟨0, true⟩, ⟨1, false⟩]), ("J2", [⟨2, false⟩])]⟩ :
          ConnectionManager).send_to_analysis_id (.failedMsg "e") "J1").1.topicChannels "J1"
        = some l' ∧ countOcc ⟨0, true⟩ l' = 0) :=
  ⟨(C7_publish_delivery ⟨[("J1", [⟨0, true⟩, ⟨1, false⟩]), ("J2", [⟨2, false⟩])]⟩
      (.failedMsg "e") "J1" [⟨0, true⟩, ⟨1, false⟩] rfl).1 ⟨1, false⟩ (by simp) rfl,
    (C7_publish_delivery ⟨[("J1", [⟨0, true⟩, ⟨1, false⟩]), ("J2", [⟨2, false⟩])]⟩
      (.failedMsg "e") "J1" [⟨0, true⟩, ⟨1, false⟩] rfl).2.2.2.2 ⟨0, true⟩ (by simp) rfl⟩

/-! ## Claim C8 -/

theorem pollForResult_some_bound (p : Nat → Option ResultDoc) :
    ∀ (fuel start : Nat) (doc : ResultDoc), pollForResult p start fuel = some doc →
      ∃ i, start ≤ i ∧ i < start + fuel ∧ p i = some doc := by
  intro fuel
  induction fuel with
  | zero =>
    intro start doc h
    exact absurd h (by simp [pollForResult])
  | succ n ih =>
    intro start doc h
    rw [pollForResult] at h
    cases hp : p start with
    | some d =>
      rw [hp] at h
      cases h
      exact ⟨start, Nat.le_refl _, by omega, hp⟩
    | none =>
      rw [hp] at h
      obtain ⟨i, h1, h2, h3⟩ := ih (start + 1) doc h
      exact ⟨i, by omega, by omega, h3⟩

theorem pollForResult_none_of_all_none (p : Nat → Option ResultDoc) :
    ∀ (fuel start : Nat), (∀ i, start ≤ i → i < start + fuel → p i = none) →
      pollForResult p start fuel = none := by
  intro fuel
  induction fuel with
  | zero => intro start _; rfl
  | succ n ih =>
    intro start h
    rw [pollForResult, h start (Nat.le_refl _) (by omega)]
    exact ih (start + 1) (fun i h1 h2 => h i (by omega) (by omega))

set_option maxRecDepth 4000 in
/-- Claim C8. The post-success polling loop is bounded: a result document is
only ever accepted from one of the first `maxRetries = 15` attempts, the loop
returns `none` (rather than looping further) once all 15 attempts missed, and
in that case the dispatcher declares a timeout failure — the job ends FAILED
with the timeout message. -/
theorem C8_polling_bounded_timeout (resultDocAt : Nat → Option ResultDoc) :
    (∀ doc, pollForResult resultDocAt 0 maxRetries = some doc →
        ∃ i, i < maxRetries ∧ resultDocAt i = some doc) ∧
    ((∀ i, i < maxRetries → resultDocAt i = none) →
        pollForResult resultDocAt 0 maxRetries = none) ∧
    (∀ (dbS dbF : Db) (cm : ConnectionManager) (tid aid : String) (nP nF : Nat)
        (a : AnalysisResult),
        (∀ i, i < maxRetries → resultDocAt i = none) →
        get_analysis_by_id dbF tid aid = some a →
        ∃ a', get_analysis_by_id
            (run_analysis_in_background dbS dbF cm tid aid (Except.ok ()) resultDocAt
              nP nF).dbFinal tid aid = some a' ∧
          a'.status = .failed ∧ a'.error_message = some timeoutFailureText) := by
  have hnone : (∀ i, i < maxRetries → resultDocAt i = none) →
      pollForResult resultDocAt 0 maxRetries = none := fun h =>
    pollForResult_none_of_all_none resultDocAt maxRetries 0
      (fun i _ h2 => h i (by omega))
  refine ⟨?_, hnone, ?_⟩
  · intro doc h
    obtain ⟨i, _, h2, h3⟩ := pollForResult_some_bound resultDocAt maxRetries 0 doc h
    exact ⟨i, by omega, h3⟩
  · intro dbS dbF cm tid aid nP nF a hmiss hget
    rw [run_analysis_in_background_dbFinal]
    rw [hnone hmiss]
    refine ⟨setAnalysisFields .failed none (some timeoutFailureText) none false nF a,
      (update_analysis_result_get dbF tid aid .failed none (some timeoutFailureText)
        none false nF a hget).2, rfl, ?_⟩
    have hproj : (setAnalysisFields .failed none (some timeoutFailureText) none false nF
          a).error_message
        = if truthyStr (some timeoutFailureText) then some timeoutFailureText
          else a.error_message := rfl
    rw [hproj]
    have ht : truthyStr (some timeoutFailureText) = true := by
      unfold truthyStr timeoutFailureText
      cases h : ("An unexpected error occurred in background task: " ++
          "Analysis result not found in database after successful automation run (30s timeout).").isEmpty
      · rfl
      · exfalso
        have h2 := (String.isEmpty_iff _).mp h
        have h3 := congrArg String.length h2
        rw [String.length_append] at h3
        have h4 : ("An unexpected error occurred in background task: " : String).length = 49 := by
          decide
        have h5 : ("" : String).length = 0 := by decide
        rw [h4, h5] at h3
        omega
    rw [ht]
    rfl

/-- Claim C8, witness. The bounded-polling theorem at an environment where the
result document never appears: the concrete job `J1` ends FAILED with the
timeout message. -/
theorem C8_polling_bounded_timeout_witness :
    ∃ a', get_analysis_by_id
        (run_analysis_in_background fixDb fixDb fixCm "T1" "J1" (Except.ok ())
          (fun _ => none) 2 3).dbFinal "T1" "J1" = some a' ∧
      a'.status = .failed ∧ a'.error_message = some timeoutFailureText :=
  (C8_polling_bounded_timeout (fun _ => none)).2.2 fixDb fixDb fixCm "T1" "J1" 2 3
    fixPending (fun _ _ => rfl) rfl

/-! ## Claim C9 -/

/-- Claim C9, counterexample. The claim says an unsubscribe that empties a
topic's channel set deletes the topic entry from the registry.  For the
analysis-id registry (`ConnectionManager.disconnect`) this is false: removing
the only subscriber of `J1` leaves the registry holding the entry
`("J1", [])`, still observable by lookup. -/
theorem C9_counterexample_empty_topic_entry_kept :
    ConnectionManager.disconnect ⟨[("J1", [⟨0, false⟩])]⟩ ⟨0, false⟩ "J1"
      = some ⟨[("J1", [])]⟩ ∧
    ConnectionManager.topicChannels ⟨[("J1", [])]⟩ "J1" = some [] := by
  refine ⟨rfl, rfl⟩

/-- Claim C9, amended. Unsubscription removes the channel in both registries,
but only the user-id registry (`WebSocketManager.disconnect`) deletes a topic
entry once its channel set is empty; the analysis-id registry
(`ConnectionManager.disconnect`) keeps the topic entry — possibly empty —
registered. -/
theorem C9_amended_unsubscribe (m : WebSocketManager) (uid : String) (c : Channel)
    (l : List Channel)
    (huniq : (m.active_connections.filter (fun e => decide (e.1 = uid))).length ≤ 1)
    (hl : (m.active_connections.find? (fun e => decide (e.1 = uid))).map Prod.snd = some l)
    (hc : c ∈ l) :
    (((removeFirstBy (fun x => decide (x = c)) l).isEmpty = true →
        (m.disconnect c uid).active_connections.find? (fun e => decide (e.1 = uid))
          = none) ∧
      ((removeFirstBy (fun x => decide (x = c)) l).isEmpty = false →
        ((m.disconnect c uid).active_connections.find?
            (fun e => decide (e.1 = uid))).map Prod.snd
          = some (removeFirstBy (fun x => decide (x = c)) l))) ∧
    (∀ (cm : ConnectionManager) (topic : String) (c' : Channel) (l' : List Channel),
        cm.topicChannels topic = some l' → c' ∈ l' →
        ∃ cm', cm.disconnect c' topic = some cm' ∧
          cm'.topicChannels topic
            = some (removeFirstBy (fun x => decide (x = c')) l')) := by
  constructor
  · have hred : m.disconnect c uid =
        (if (removeFirstBy (fun x => decide (x = c)) l).isEmpty then
          (⟨removeFirstBy (fun e => decide (e.1 = uid)) m.active_connections⟩ :
            WebSocketManager)
         else ⟨updateFirst (fun e => decide (e.1 = uid))
            (fun e => (e.1, removeFirstBy (fun x => decide (x = c)) l))
            m.active_connections⟩) := by
      unfold WebSocketManager.disconnect
      rw [hl]
      simp only [hc, if_true]
    constructor
    · intro hemp
      rw [hred, if_pos hemp]
      exact find?_removeFirstBy_self (fun e => decide (e.1 = uid)) m.active_connections huniq
    · intro hemp
      rw [hred, if_neg (by simp [hemp])]
      obtain ⟨x, hfx, hxl⟩ : ∃ x, m.active_connections.find? (fun e => decide (e.1 = uid))
          = some x ∧ x.2 = l := by
        cases hf : m.active_connections.find? (fun e => decide (e.1 = uid)) with
        | none => rw [hf] at hl; exact absurd hl (by simp)
        | some x => rw [hf] at hl; exact ⟨x, rfl, by simpa using hl⟩
      have hpres : ∀ x : String × List Channel,
          (fun e => decide (e.1 = uid))
              ((fun e => (e.1, removeFirstBy (fun y => decide (y = c)) l)) x)
            = (fun e => decide (e.1 = uid)) x := fun x => rfl
      show ((updateFirst (fun e => decide (e.1 = uid))
          (fun e => (e.1, removeFirstBy (fun y => decide (y = c)) l))
          m.active_connections).find? (fun e => decide (e.1 = uid))).map Prod.snd = _
      rw [find?_updateFirst_pres (fun e => decide (e.1 = uid)) (fun e => decide (e.1 = uid))
          _ m.active_connections hpres (fun x => Iff.rfl), hfx]
      rfl
  · intro cm topic c' l' hl' hc'
    refine ⟨cm.setTopic topic (removeFirstBy (fun x => decide (x = c')) l'), ?_, ?_⟩
    · unfold ConnectionManager.disconnect
      rw [hl']
      simp only [hc', if_true]
    · exact topicChannels_setTopic_self cm topic l' _ hl'

/-- Claim C9, witness. The amended theorem at concrete registries: removing the
only `U` subscriber deletes the `U` entry of the user-id registry, while
removing the only `J1` subscriber of the analysis-id registry keeps the `J1`
entry (empty) registered. -/
theorem C9_amended_unsubscribe_witness :
    ((⟨[("U", [⟨0, false⟩])]⟩ : WebSocketManager).disconnect ⟨0, false⟩
        "U").active_connections.find? (fun e => decide (e.1 = "U")) = none ∧
    (∃ cm', (⟨[("J1", [⟨0, false⟩])]⟩ : ConnectionManager).disconnect ⟨0, false⟩ "J1"
        = some cm' ∧
      cm'.topicChannels "J1"
        = some (removeFirstBy (fun x => decide (x = (⟨0, false⟩ : Channel)))
            [(⟨0, false⟩ : Channel)])) :=
  ⟨(C9_amended_unsubscribe ⟨[("U", [⟨0, false⟩])]⟩ "U" ⟨0, false⟩ [⟨0, false⟩]
      (by decide) rfl (by simp)).1.1 rfl,
    (C9_amended_unsubscribe ⟨[("U", [⟨0, false⟩])]⟩ "U" ⟨0, false⟩ [⟨0, false⟩]
      (by decide) rfl (by simp)).2 ⟨[("J1", [⟨0, false⟩])]⟩ "J1" ⟨0, false⟩
      [⟨0, false⟩] rfl (by simp)⟩

/-! ## Claim C10 -/

theorem firstIdxBy_of_any_eq_false (p : α → Bool) (l : List α) (h : l.any p = false) :
    firstIdxBy p l = l.length := by
  induction l with
  | nil => rfl
  | cons x xs ih =>
    simp only [List.any_cons, Bool.or_eq_false_iff] at h
    simp [firstIdxBy, h.1, ih h.2]

/-- Claim C10. Frame conditions of `update_analysis_result`: the collection
keeps its shape; every tender other than the first one matching the filter
is untouched; inside the matched tender every analysis other than the first
one with the given id is untouched; and in the matched analysis only `status`
and `updated_at` are written unconditionally, while `data` and
`error_message` are written only when the argument is truthy (a `none` or
empty payload leaves the stored value), `processing_time` only when not
`none`, and `pending_since` is nulled only when `clear_pending_since`. -/
theorem C10_update_frame (db : Db) (tid aid : String) (st : AnalysisStatus)
    (d : Option Payload) (em : Option String) (pt : Option Nat) (cps : Bool) (now : Nat) :
    (update_analysis_result db tid aid st d em pt cps now).1.tenders.length
      = db.tenders.length ∧
    (∀ i, i ≠ firstIdxBy (tenderMatches tid aid) db.tenders →
      (update_analysis_result db tid aid st d em pt cps now).1.tenders.get? i
        = db.tenders.get? i) ∧
    (∀ t, db.tenders.get? (firstIdxBy (tenderMatches tid aid) db.tenders) = some t →
      ∃ t', (update_analysis_result db tid aid st d em pt cps now).1.tenders.get?
          (firstIdxBy (tenderMatches tid aid) db.tenders) = some t' ∧
        t'._id = t._id ∧
        t'.updated_at = t.updated_at ∧
        t'.analysis_results.length = t.analysis_results.length ∧
        (∀ j, j ≠ firstIdxBy (fun a => decide (a.id = aid)) t.analysis_results →
          t'.analysis_results.get? j = t.analysis_results.get? j) ∧
        (∀ a, t.analysis_results.get?
            (firstIdxBy (fun x => decide (x.id = aid)) t.analysis_results) = some a →
          ∃ a', t'.analysis_results.get?
              (firstIdxBy (fun x => decide (x.id = aid)) t.analysis_results) = some a' ∧
            a'.id = a.id ∧ a'.name = a.name ∧ a'.procedure_id = a.procedure_id ∧
            a'.procedure_name = a.procedure_name ∧ a'.created_by = a.created_by ∧
            a'.created_at = a.created_at ∧
            a'.status = st ∧ a'.updated_at = some now ∧
            (truthyPayload d = false → a'.data = a.data) ∧
            (truthyPayload d = true → a'.data = d) ∧
            (truthyStr em = false → a'.error_message = a.error_message) ∧
            (truthyStr em = true → a'.error_message = em) ∧
            (pt = none → a'.processing_time = a.processing_time) ∧
            (pt.isSome = true → a'.processing_time = pt) ∧
            (cps = false → a'.pending_since = a.pending_since) ∧
            (cps = true → a'.pending_since = none))) := by
  by_cases hany : db.tenders.any (tenderMatches tid aid) = true
  · have hfst : (update_analysis_result db tid aid st d em pt cps now).1
        = ⟨updateFirst (tenderMatches tid aid)
            (setInTender aid (setAnalysisFields st d em pt cps now)) db.tenders⟩ := by
      unfold update_analysis_result
      simp [hany]
    rw [hfst]
    refine ⟨updateFirst_length _ _ _, ?_, ?_⟩
    · intro i hi
      exact updateFirst_get?_ne _ _ _ _ hi
    · intro t ht
      obtain ⟨hpt, hup⟩ := updateFirst_get?_eq (tenderMatches tid aid)
        (setInTender aid (setAnalysisFields st d em pt cps now)) db.tenders t ht
      refine ⟨setInTender aid (setAnalysisFields st d em pt cps now) t, hup, rfl, rfl,
        updateFirst_length _ _ _, ?_, ?_⟩
      · intro j hj
        exact updateFirst_get?_ne _ _ _ _ hj
      · intro a ha
        obtain ⟨hqa, hua⟩ := updateFirst_get?_eq (fun x => decide (x.id = aid))
          (setAnalysisFields st d em pt cps now) t.analysis_results a ha
        refine ⟨setAnalysisFields st d em pt cps now a, hua, rfl, rfl, rfl, rfl, rfl,
          rfl, rfl, rfl, ?_, ?_, ?_, ?_, ?_, ?_, ?_, ?_⟩
        · intro h; simp [setAnalysisFields, h]
        · intro h; simp [setAnalysisFields, h]
        · intro h; simp [setAnalysisFields, h]
        · intro h; simp [setAnalysisFields, h]
        · intro h; simp [setAnalysisFields, h]
        · intro h; simp [setAnalysisFields, h]
        · intro h; simp [setAnalysisFields, h]
        · intro h; simp [setAnalysisFields, h]
  · simp only [Bool.not_eq_true] at hany
    have hfst : (update_analysis_result db tid aid st d em pt cps now).1 = db := by
      unfold update_analysis_result
      simp [hany]
    rw [hfst]
    refine ⟨rfl, fun i _ => rfl, ?_⟩
    intro t ht
    rw [firstIdxBy_of_any_eq_false _ _ hany] at ht
    rw [List.get?_eq_none.mpr (Nat.le_refl _)] at ht
    exact absurd ht (by simp)

/-- Claim C10, witness. The frame theorem at the concrete collection: the
COMPLETED update on `J1` rewrites the matched analysis (status, `updated_at`,
truthy payload) while keeping its identity fields and its `pending_since`. -/
theorem C10_update_frame_witness :
    ∃ t', (update_analysis_result fixDb "T1" "J1" .completed (some [("x", "1")])
        none none false 9).1.tenders.get?
        (firstIdxBy (tenderMatches "T1" "J1") fixDb.tenders) = some t' ∧
      ∃ a', t'.analysis_results.get?
          (firstIdxBy (fun x => decide (x.id = "J1")) fixTender.analysis_results)
          = some a' ∧
        a'.id = "J1" ∧ a'.status = .completed ∧ a'.updated_at = some 9 ∧
        a'.data = some [("x", "1")] ∧ a'.pending_since = fixPending.pending_since := by
  obtain ⟨t', ht', _, _, _, _, hinner⟩ :=
    (C10_update_frame fixDb "T1" "J1" .completed (some [("x", "1")]) none none false 9).2.2
      fixTender rfl
  obtain ⟨a', ha', hid, _, _, _, _, _, hst, hupd, _, hdata, _, _, _, _, hpend, _⟩ :=
    hinner fixPending rfl
  exact ⟨t', ht', a', ha', hid, hst, hupd, hdata rfl, hpend rfl⟩

end Lizicular
